import Mathlib

/-!
Verification of the `result_iter` Rust crate (`src/lib.rs`) against its
natural-language specification.

The crate operates on iterators of `Result<T, E>`.  We embed:
* `Res T E` — the element type `Result<T, E>`;
* `MultiError E` — the aggregate-error container (a wrapped `Vec<E>`);
* `fail_slow_loop` / `fail_slow_if_err` — the fail-slow aggregator loop
  from `impl ResultIterExt`, over a finite list of elements;
* `State`, `EndIfErrIter`, `EndIfErrIter.next` — the truncating iterator
  adapter, modelled over an arbitrary underlying pull-based iterator
  given by a step function `I → Option (Res T E) × I` (mirroring Rust's
  `fn next(&mut self) -> Option<Item>`, which both advances the iterator
  state and returns the optional element);
* `end_if_err` — draining the adapter over a finite list source;
* `fail_fast_if_err` — the composition `end_if_err ∘ fail_slow_if_err`
  with the final `into_iter().next().expect("")` unwrap; the `expect`
  panic branch is modelled as `none`.
-/

set_option maxHeartbeats 1000000

/-- The element type `Result<T, E>` of the iterators the crate works on. -/
inductive Res (T E : Type) where
  | ok : T → Res T E
  | err : E → Res T E
deriving DecidableEq

/-- Rust's `Result::is_err`, used by `EndIfErrIter::next`. -/
def Res.is_err {T E : Type} : Res T E → Bool
  | .ok _ => false
  | .err _ => true

/-- The `MultiError<E>` container: a tuple struct wrapping `Vec<E>`. -/
structure MultiError (E : Type) where
  errors : List E
deriving DecidableEq

/-- `MultiError::new(errors)` — stores the vector unchanged, no validation. -/
def MultiError.new {E : Type} (errors : List E) : MultiError E := ⟨errors⟩

/-- `MultiError::len()` — length of the wrapped vector. -/
def MultiError.len {E : Type} (m : MultiError E) : Nat := m.errors.length

/-- `MultiError::into_iter()` — consuming iteration over the wrapped vector,
in order.  We model the resulting `vec::IntoIter<E>` as the list itself. -/
def MultiError.into_iter {E : Type} (m : MultiError E) : List E := m.errors

/-- The `fmt::Display` impl for `MultiError`: `Display::fmt(&self.0[0], f)`.
`disp` is the `Display` rendering of a single `E`.  The index access
`self.0[0]` panics on an empty vector; the panic is modelled as `none`. -/
def MultiError.display {E : Type} (disp : E → String) (m : MultiError E) :
    Option String :=
  (m.errors.get? 0).map disp

/-- The `StdError` impl for `MultiError`: `self.0[0].description()`.
`descr` is the `description` of a single `E`; `self.0[0]` panics on an
empty vector, modelled as `none`. -/
def MultiError.description {E : Type} (descr : E → String) (m : MultiError E) :
    Option String :=
  (m.errors.get? 0).map descr

/-- The `for el in self` loop body of `fail_slow_if_err`, carrying the
`goodies`, `baddies` and `still_ok` locals.  `Ok` payloads are pushed only
while `still_ok`; an `Err` clears `still_ok` and is always pushed. -/
def fail_slow_loop {T E : Type} :
    List T → List E → Bool → List (Res T E) → List T × List E
  | goodies, baddies, _, [] => (goodies, baddies)
  | goodies, baddies, still_ok, Res.ok a :: rest =>
      if !still_ok then fail_slow_loop goodies baddies still_ok rest
      else fail_slow_loop (goodies ++ [a]) baddies still_ok rest
  | goodies, baddies, _, Res.err b :: rest =>
      fail_slow_loop goodies (baddies ++ [b]) false rest

/-- `fail_slow_if_err` from `impl ResultIterExt`: drain the sequence with
`fail_slow_loop` starting from empty buffers and `still_ok = true`; if no
errors were collected return the successes, otherwise wrap all errors in a
`MultiError`. -/
def fail_slow_if_err {T E : Type} (l : List (Res T E)) :
    Except (MultiError E) (List T) :=
  let p := fail_slow_loop [] [] true l
  if p.2.isEmpty then Except.ok p.1 else Except.error (MultiError.new p.2)

/-- The two-valued state of the truncating adapter (`enum State`). -/
inductive State where
  | Continue : State
  | End : State
deriving DecidableEq

/-- The truncating adapter `EndIfErrIter(I, State)`: the underlying
iterator of type `I` plus the current `State`. -/
structure EndIfErrIter (T E I : Type) where
  it : I
  st : State
deriving DecidableEq

/-- `EndIfErrIter::next`.  The underlying iterator is abstract: `step`
plays the role of `self.0.next()`, returning the optional element and the
advanced iterator.  In `State::Continue` the underlying iterator is pulled
once; a yielded `Err` flips the state to `End` (the element itself is
still yielded), a `None` leaves the state at `Continue`.  In `State::End`
nothing is pulled and `None` is returned. -/
def EndIfErrIter.next {T E I : Type} (step : I → Option (Res T E) × I) :
    EndIfErrIter T E I → Option (Res T E) × EndIfErrIter T E I
  | ⟨it, State.Continue⟩ =>
      match step it with
      | (some n, it2) =>
          (some n, ⟨it2, if n.is_err then State.End else State.Continue⟩)
      | (none, it2) => (none, ⟨it2, State.Continue⟩)
  | ⟨it, State.End⟩ => (none, ⟨it, State.End⟩)

/-- The step function of an iterator over a finite list (Rust's
`vec::IntoIter`-style fused source): yield the head and advance. -/
def listStep {α : Type} : List α → Option α × List α
  | [] => (none, [])
  | x :: xs => (some x, xs)

/-- Drain an `EndIfErrIter` over a list source by repeated `next`, with
enough fuel to exhaust the source; collects the yielded elements. -/
def runEndIfErrAux {T E : Type} :
    Nat → EndIfErrIter T E (List (Res T E)) → List (Res T E)
  | 0, _ => []
  | fuel + 1, s =>
      match EndIfErrIter.next listStep s with
      | (some n, s2) => n :: runEndIfErrAux fuel s2
      | (none, _) => []

/-- `end_if_err` from `impl ResultIterExt` over a finite list: wrap the
source in `EndIfErrIter(self, State::Continue)` and drain it. -/
def end_if_err {T E : Type} (l : List (Res T E)) : List (Res T E) :=
  runEndIfErrAux (l.length + 1) ⟨l, State.Continue⟩

/-- `fail_fast_if_err` (the trait's default method):
`self.end_if_err().fail_slow_if_err().map_err(|e| e.into_iter().next().expect(""))`.
The `expect("")` panic on an empty `MultiError` is modelled as `none`. -/
def fail_fast_if_err {T E : Type} (l : List (Res T E)) :
    Option (Except E (List T)) :=
  match fail_slow_if_err (end_if_err l) with
  | Except.ok g => some (Except.ok g)
  | Except.error m =>
      match MultiError.into_iter m with
      | [] => none
      | e :: _ => some (Except.error e)

/-! ### Specification-side helper functions used to state the claims. -/

/-- The errors of a sequence, in encounter order. -/
def errsOf {T E : Type} : List (Res T E) → List E
  | [] => []
  | Res.ok _ :: rest => errsOf rest
  | Res.err b :: rest => b :: errsOf rest

/-- All success payloads of a sequence, in order. -/
def oksOf {T E : Type} : List (Res T E) → List T
  | [] => []
  | Res.ok a :: rest => a :: oksOf rest
  | Res.err _ :: rest => oksOf rest

/-- The success payloads strictly before the first error. -/
def oksBefore {T E : Type} : List (Res T E) → List T
  | [] => []
  | Res.ok a :: rest => a :: oksBefore rest
  | Res.err _ :: _ => []

/-- The index of the first error of a sequence, if any. -/
def firstErrIdx {T E : Type} : List (Res T E) → Option Nat
  | [] => none
  | x :: xs => if x.is_err then some 0 else (firstErrIdx xs).map (· + 1)

/-- The prefix of a sequence up to and including its first error (the
whole sequence when there is none). -/
def takeThru {T E : Type} : List (Res T E) → List (Res T E)
  | [] => []
  | x :: xs => if x.is_err then [x] else x :: takeThru xs

/-- A concrete non-fused underlying iterator over counter states: it
signals end once, then yields a success, then is exhausted for good. -/
def nfStep : Nat → Option (Res Nat Nat) × Nat
  | 0 => (none, 1)
  | 1 => (some (Res.ok 42), 2)
  | _ => (none, 2)

example : fail_slow_if_err ([Res.ok 1, Res.ok 2] : List (Res Nat String)) =
    Except.ok [1, 2] := rfl
example : fail_slow_if_err ([Res.ok 1, Res.err "x", Res.err "y", Res.ok 2] :
    List (Res Nat String)) = Except.error (MultiError.new ["x", "y"]) := rfl
example : end_if_err ([Res.ok 1, Res.err "x", Res.err "y", Res.ok 2] :
    List (Res Nat String)) = [Res.ok 1, Res.err "x"] := by decide
example : fail_fast_if_err ([Res.ok 1, Res.err "x", Res.err "y", Res.ok 2] :
    List (Res Nat String)) = some (Except.error "x") := rfl
example : fail_fast_if_err ([] : List (Res Nat String)) =
    some (Except.ok []) := rfl

/-! ### Characterization lemmas. -/

/-- Once `still_ok` is false, the loop keeps only accumulating errors. -/
theorem fail_slow_loop_false {T E : Type} (l : List (Res T E)) :
    ∀ g b, fail_slow_loop g b false l = (g, b ++ errsOf l) := by
  induction l with
  | nil => intro g b; simp [fail_slow_loop, errsOf]
  | cons x rest ih =>
      intro g b
      cases x with
      | ok a => simpa [fail_slow_loop, errsOf] using ih g b
      | err bb =>
          simp only [fail_slow_loop, errsOf, ih]
          simp [List.append_assoc]

/-- While `still_ok` is true, the loop accumulates the payloads before the
first error and all errors. -/
theorem fail_slow_loop_true {T E : Type} (l : List (Res T E)) :
    ∀ g b, fail_slow_loop g b true l = (g ++ oksBefore l, b ++ errsOf l) := by
  induction l with
  | nil => intro g b; simp [fail_slow_loop, oksBefore, errsOf]
  | cons x rest ih =>
      intro g b
      cases x with
      | ok a =>
          simp only [fail_slow_loop, Bool.not_true, oksBefore, errsOf, ih]
          simp [List.append_assoc]
      | err bb =>
          simp only [fail_slow_loop, oksBefore, errsOf,
            fail_slow_loop_false rest]
          simp [List.append_assoc]

/-- `fail_slow_if_err` on an error-free sequence succeeds with the
payloads before the (absent) first error. -/
theorem fail_slow_spec_ok {T E : Type} (l : List (Res T E))
    (h : errsOf l = []) : fail_slow_if_err l = Except.ok (oksBefore l) := by
  simp [fail_slow_if_err, fail_slow_loop_true l [] [], h]

/-- `fail_slow_if_err` on a sequence with at least one error fails with
exactly the errors of the sequence, in order. -/
theorem fail_slow_spec_err {T E : Type} (l : List (Res T E)) (b : E)
    (bs : List E) (h : errsOf l = b :: bs) :
    fail_slow_if_err l = Except.error (MultiError.new (b :: bs)) := by
  simp [fail_slow_if_err, fail_slow_loop_true l [] [], h]

/-- On an error-free sequence, the payloads before the first error are all
the payloads. -/
theorem oksBefore_eq_oksOf {T E : Type} (l : List (Res T E))
    (h : errsOf l = []) : oksBefore l = oksOf l := by
  induction l with
  | nil => rfl
  | cons x rest ih =>
      cases x with
      | ok a =>
          simp only [errsOf] at h
          simp [oksBefore, oksOf, ih h]
      | err bb => simp [errsOf] at h

/-- Draining from the `End` state yields nothing. -/
theorem runEndIfErrAux_end {T E : Type} (fuel : Nat)
    (it : List (Res T E)) : runEndIfErrAux fuel ⟨it, State.End⟩ = [] := by
  cases fuel with
  | zero => rfl
  | succ f => simp [runEndIfErrAux, EndIfErrIter.next]

/-- With enough fuel, draining from `Continue` yields the prefix through
the first error. -/
theorem runEndIfErrAux_continue {T E : Type} (l : List (Res T E)) :
    ∀ fuel, l.length + 1 ≤ fuel →
      runEndIfErrAux fuel ⟨l, State.Continue⟩ = takeThru l := by
  induction l with
  | nil =>
      intro fuel h
      match fuel, h with
      | f + 1, _ => simp [runEndIfErrAux, EndIfErrIter.next, listStep, takeThru]
  | cons x rest ih =>
      intro fuel h
      match fuel, h with
      | f + 1, h =>
          cases x with
          | ok a =>
              have hf : rest.length + 1 ≤ f := by
                simpa [List.length_cons, Nat.succ_le_succ_iff] using h
              simp [runEndIfErrAux, EndIfErrIter.next, listStep, takeThru,
                Res.is_err, ih f hf]
          | err bb =>
              simp [runEndIfErrAux, EndIfErrIter.next, listStep, takeThru,
                Res.is_err, runEndIfErrAux_end]

/-- `end_if_err` computes the prefix up to and including the first error. -/
theorem end_if_err_eq_takeThru {T E : Type} (l : List (Res T E)) :
    end_if_err l = takeThru l :=
  runEndIfErrAux_continue l (l.length + 1) (Nat.le_refl _)

/-- Truncation keeps only the first error. -/
theorem errsOf_takeThru {T E : Type} (l : List (Res T E)) :
    errsOf (takeThru l) = (errsOf l).take 1 := by
  induction l with
  | nil => rfl
  | cons x rest ih =>
      cases x with
      | ok a => simpa [takeThru, Res.is_err, errsOf] using ih
      | err bb => simp [takeThru, Res.is_err, errsOf]

/-- Truncation preserves the payloads before the first error. -/
theorem oksBefore_takeThru {T E : Type} (l : List (Res T E)) :
    oksBefore (takeThru l) = oksBefore l := by
  induction l with
  | nil => rfl
  | cons x rest ih =>
      cases x with
      | ok a => simpa [takeThru, Res.is_err, oksBefore] using ih
      | err bb => simp [takeThru, Res.is_err, oksBefore]

/-- `fail_fast_if_err` on an error-free sequence succeeds with the
payloads before the (absent) first error. -/
theorem fail_fast_spec_ok {T E : Type} (l : List (Res T E))
    (h : errsOf l = []) :
    fail_fast_if_err l = some (Except.ok (oksBefore l)) := by
  have he : errsOf (end_if_err l) = [] := by
    rw [end_if_err_eq_takeThru, errsOf_takeThru, h]; rfl
  have hs := fail_slow_spec_ok (end_if_err l) he
  have ho : oksBefore (end_if_err l) = oksBefore l := by
    rw [end_if_err_eq_takeThru, oksBefore_takeThru]
  simp [fail_fast_if_err, hs, ho]

/-- `fail_fast_if_err` on a sequence whose first error is `b` fails with
exactly `b` (the `expect` never panics). -/
theorem fail_fast_spec_err {T E : Type} (l : List (Res T E)) (b : E)
    (bs : List E) (h : errsOf l = b :: bs) :
    fail_fast_if_err l = some (Except.error b) := by
  have he : errsOf (end_if_err l) = [b] := by
    rw [end_if_err_eq_takeThru, errsOf_takeThru, h]; rfl
  have hs := fail_slow_spec_err (end_if_err l) b [] he
  simp [fail_fast_if_err, hs, MultiError.into_iter, MultiError.new]

/-! ### Claims. -/

/-- Claim C1: for every finite sequence of result-values, `fail_fast_if_err`
succeeds iff `fail_slow_if_err` succeeds; when both succeed their success
sequences are identical; when both fail, the single `fail_fast_if_err`
error equals the first element of the `fail_slow_if_err` error list. -/
theorem C1_fail_fast_fail_slow_consistency {T E : Type} (l : List (Res T E)) :
    ((∃ g, fail_fast_if_err l = some (Except.ok g)) ↔
      (∃ g, fail_slow_if_err l = Except.ok g)) ∧
    (∀ g g2, fail_fast_if_err l = some (Except.ok g) →
      fail_slow_if_err l = Except.ok g2 → g = g2) ∧
    (∀ e m, fail_fast_if_err l = some (Except.error e) →
      fail_slow_if_err l = Except.error m →
      (MultiError.into_iter m).head? = some e) := by
  cases hE : errsOf l with
  | nil =>
      have hf := fail_fast_spec_ok l hE
      have hs := fail_slow_spec_ok l hE
      refine ⟨⟨fun _ => ⟨oksBefore l, hs⟩, fun _ => ⟨oksBefore l, hf⟩⟩, ?_, ?_⟩
      · intro g g2 h1 h2
        rw [hf] at h1
        rw [hs] at h2
        have hg : oksBefore l = g := Except.ok.inj (Option.some.inj h1)
        have hg2 : oksBefore l = g2 := Except.ok.inj h2
        exact hg.symm.trans hg2
      · intro e m h1 _
        rw [hf] at h1
        exact Except.noConfusion (Option.some.inj h1)
  | cons b bs =>
      have hf := fail_fast_spec_err l b bs hE
      have hs := fail_slow_spec_err l b bs hE
      refine ⟨⟨?_, ?_⟩, ?_, ?_⟩
      · rintro ⟨g, hg⟩
        rw [hf] at hg
        exact Except.noConfusion (Option.some.inj hg)
      · rintro ⟨g, hg⟩
        rw [hs] at hg
        exact Except.noConfusion hg
      · intro g g2 _ h2
        rw [hs] at h2
        exact Except.noConfusion h2
      · intro e m h1 h2
        rw [hf] at h1
        rw [hs] at h2
        have he : b = e := Except.error.inj (Option.some.inj h1)
        have hm : MultiError.new (b :: bs) = m := Except.error.inj h2
        subst he
        subst hm
        rfl

/-- Witness for C1 at concrete inputs. -/
theorem C1_witness :
    (([1] : List Nat) = [1]) ∧
    ((MultiError.into_iter (MultiError.new [(7 : Nat), 8])).head? = some 7) :=
  ⟨(C1_fail_fast_fail_slow_consistency
      ([Res.ok 1] : List (Res Nat Nat))).2.1 [1] [1] rfl rfl,
   (C1_fail_fast_fail_slow_consistency
      ([Res.ok 1, Res.err 7, Res.err 8] : List (Res Nat Nat))).2.2 7
      (MultiError.new [7, 8]) rfl rfl⟩

/-- Claim C2: on a sequence with at least one failure, `fail_slow_if_err`
returns the failure branch; the `MultiError` holds exactly the failures'
error values in encounter order (so its length is the number of failures),
and no success payload appears in the result. -/
theorem C2_fail_slow_failure {T E : Type} (l : List (Res T E))
    (h : errsOf l ≠ []) :
    fail_slow_if_err l = Except.error (MultiError.new (errsOf l)) ∧
    MultiError.len (MultiError.new (errsOf l)) = (errsOf l).length := by
  cases hE : errsOf l with
  | nil => exact absurd hE h
  | cons b bs => exact ⟨fail_slow_spec_err l b bs hE, rfl⟩

/-- Witness for C2 at a concrete input. -/
theorem C2_witness :
    errsOf ([Res.err 7] : List (Res Nat Nat)) ≠ [] ∧
    (fail_slow_if_err ([Res.err 7] : List (Res Nat Nat)) =
        Except.error
          (MultiError.new (errsOf ([Res.err 7] : List (Res Nat Nat)))) ∧
      MultiError.len
          (MultiError.new (errsOf ([Res.err 7] : List (Res Nat Nat)))) =
        (errsOf ([Res.err 7] : List (Res Nat Nat))).length) :=
  ⟨by decide, C2_fail_slow_failure ([Res.err 7] : List (Res Nat Nat)) (by decide)⟩

/-- Claim C3: on a sequence with zero failures, `fail_slow_if_err` returns
the success branch carrying all success payloads in their original order. -/
theorem C3_fail_slow_success {T E : Type} (l : List (Res T E))
    (h : errsOf l = []) : fail_slow_if_err l = Except.ok (oksOf l) := by
  rw [fail_slow_spec_ok l h, oksBefore_eq_oksOf l h]

/-- Witness for C3 at a concrete input. -/
theorem C3_witness :
    errsOf ([Res.ok 1, Res.ok 2] : List (Res Nat Nat)) = [] ∧
    fail_slow_if_err ([Res.ok 1, Res.ok 2] : List (Res Nat Nat)) =
      Except.ok (oksOf ([Res.ok 1, Res.ok 2] : List (Res Nat Nat))) :=
  ⟨by decide, C3_fail_slow_success _ (by decide)⟩

/-- When the first error sits at index `i`, the truncated prefix is the
first `i + 1` elements. -/
theorem takeThru_of_firstErrIdx_some {T E : Type} :
    ∀ (l : List (Res T E)) i, firstErrIdx l = some i →
      takeThru l = l.take (i + 1) := by
  intro l
  induction l with
  | nil => intro i h; exact Option.noConfusion h
  | cons x xs ih =>
      intro i h
      cases x with
      | ok a =>
          simp only [firstErrIdx, Res.is_err, Bool.false_eq_true, if_false,
            Option.map_eq_some'] at h
          obtain ⟨j, hj, hji⟩ := h
          subst hji
          simp [takeThru, Res.is_err, List.take_succ_cons, ih j hj]
      | err b =>
          simp only [firstErrIdx, Res.is_err, if_true,
            Option.some.injEq] at h
          subst h
          simp [takeThru, Res.is_err, List.take_succ_cons]

/-- When there is no error, truncation is the identity. -/
theorem takeThru_of_firstErrIdx_none {T E : Type} :
    ∀ l : List (Res T E), firstErrIdx l = none → takeThru l = l := by
  intro l
  induction l with
  | nil => intro _; rfl
  | cons x xs ih =>
      intro h
      cases x with
      | ok a =>
          simp only [firstErrIdx, Res.is_err, Bool.false_eq_true, if_false,
            Option.map_eq_none'] at h
          simp [takeThru, Res.is_err, ih h]
      | err b => simp [firstErrIdx, Res.is_err] at h

/-- Claim C4: if the first failure of `S` is at index `k - 1`, `end_if_err`
yields exactly `S`'s first `k` elements in content and order; if `S` has no
failure, `end_if_err` yields all of `S` unchanged. -/
theorem C4_truncation_length {T E : Type} (l : List (Res T E)) :
    (∀ i, firstErrIdx l = some i → end_if_err l = l.take (i + 1)) ∧
    (firstErrIdx l = none → end_if_err l = l) := by
  constructor
  · intro i h
    rw [end_if_err_eq_takeThru]
    exact takeThru_of_firstErrIdx_some l i h
  · intro h
    rw [end_if_err_eq_takeThru]
    exact takeThru_of_firstErrIdx_none l h

/-- Witness for C4 at concrete inputs. -/
theorem C4_witness :
    end_if_err ([Res.ok 1, Res.err 7, Res.ok 2] : List (Res Nat Nat)) =
      ([Res.ok 1, Res.err 7, Res.ok 2] : List (Res Nat Nat)).take 2 ∧
    end_if_err ([Res.ok 1, Res.ok 2] : List (Res Nat Nat)) =
      [Res.ok 1, Res.ok 2] :=
  ⟨(C4_truncation_length [Res.ok 1, Res.err 7, Res.ok 2]).1 1 (by decide),
   (C4_truncation_length [Res.ok 1, Res.ok 2]).2 (by decide)⟩

/-- Claim C5: whenever `fail_slow_if_err` on the `end_if_err`-truncated
sequence fails, its `MultiError` holds exactly one error, so the
`into_iter().next().expect("")` inside `fail_fast_if_err` never panics
(the result is never the `none` that models the panic branch). -/
theorem C5_fail_fast_unwrap_safe {T E : Type} (l : List (Res T E)) :
    (∀ m, fail_slow_if_err (end_if_err l) = Except.error m →
      MultiError.len m = 1) ∧
    (fail_fast_if_err l).isSome = true := by
  cases hE : errsOf l with
  | nil =>
      have he : errsOf (end_if_err l) = [] := by
        rw [end_if_err_eq_takeThru, errsOf_takeThru, hE]; rfl
      constructor
      · intro m hm
        rw [fail_slow_spec_ok (end_if_err l) he] at hm
        exact Except.noConfusion hm
      · rw [fail_fast_spec_ok l hE]; rfl
  | cons b bs =>
      have he : errsOf (end_if_err l) = [b] := by
        rw [end_if_err_eq_takeThru, errsOf_takeThru, hE]; rfl
      constructor
      · intro m hm
        rw [fail_slow_spec_err (end_if_err l) b [] he] at hm
        rw [← Except.error.inj hm]
        rfl
      · rw [fail_fast_spec_err l b bs hE]; rfl

/-- Witness for C5 at a concrete input. -/
theorem C5_witness :
    MultiError.len (MultiError.new [(7 : Nat)]) = 1 ∧
    (fail_fast_if_err ([Res.err 7] : List (Res Nat Nat))).isSome = true :=
  ⟨(C5_fail_fast_unwrap_safe ([Res.err 7] : List (Res Nat Nat))).1
      (MultiError.new [7]) rfl,
   (C5_fail_fast_unwrap_safe ([Res.err 7] : List (Res Nat Nat))).2⟩

/-- Counterexample to claim C6 as stated: over a non-fused underlying
iterator (`nfStep`), the adapter signals end-of-sequence on its first pull
(the underlying signalled end while the state was `Continue`), yet the very
next pull yields `Res.ok 42` rather than signalling end again — because
the adapter pulled the underlying sequence again. -/
theorem C6_counterexample :
    (EndIfErrIter.next nfStep ⟨0, State.Continue⟩).1 = none ∧
    (EndIfErrIter.next nfStep
        (EndIfErrIter.next nfStep ⟨0, State.Continue⟩).2).1 =
      some (Res.ok 42) ∧
    ¬ ((EndIfErrIter.next nfStep
        (EndIfErrIter.next nfStep ⟨0, State.Continue⟩).2).1 = none) :=
  ⟨rfl, rfl, by decide⟩

/-- Claim C6, amended: the adapter enters the `End` state exactly when it
yields a failure element, and once in the `End` state every pull returns
`none` with the adapter (state and underlying iterator) unchanged, so the
underlying sequence is never pulled again.  (After a `none` that merely
reflects underlying exhaustion, the state remains `Continue` and the
underlying sequence is pulled again on the next pull.) -/
theorem C6_end_state_terminal {T E I : Type}
    (step : I → Option (Res T E) × I) (s : EndIfErrIter T E I) :
    (∀ n s2, EndIfErrIter.next step s = (some n, s2) → n.is_err = true →
      s2.st = State.End) ∧
    (s.st = State.End → EndIfErrIter.next step s = (none, s)) := by
  obtain ⟨it, st⟩ := s
  constructor
  · intro n s2 h hn
    cases st with
    | Continue =>
        cases hs : step it with
        | mk o it2 =>
            cases o with
            | none => simp [EndIfErrIter.next, hs] at h
            | some nn =>
                simp only [EndIfErrIter.next, hs, Prod.mk.injEq,
                  Option.some.injEq] at h
                obtain ⟨ha, hb⟩ := h
                subst ha
                rw [← hb]
                simp [hn]
    | End => simp [EndIfErrIter.next] at h
  · intro h
    cases st with
    | Continue => exact State.noConfusion h
    | End => rfl

/-- Witness for the amended C6 at concrete inputs. -/
theorem C6_witness :
    ((⟨[], State.End⟩ : EndIfErrIter Nat Nat (List (Res Nat Nat))).st =
      State.End) ∧
    (EndIfErrIter.next listStep
        (⟨[], State.End⟩ : EndIfErrIter Nat Nat (List (Res Nat Nat))) =
      (none, ⟨[], State.End⟩)) :=
  ⟨(C6_end_state_terminal listStep
      (⟨[Res.err 0], State.Continue⟩ :
        EndIfErrIter Nat Nat (List (Res Nat Nat)))).1 (Res.err 0)
      ⟨[], State.End⟩ rfl rfl,
   (C6_end_state_terminal listStep
      (⟨[], State.End⟩ : EndIfErrIter Nat Nat (List (Res Nat Nat)))).2 rfl⟩

/-- Claim C7: for a `MultiError` built from a non-empty vector, its
`Display` output equals the `Display` output of its first error, and its
`description` equals the first error's `description`, however many further
errors it holds. -/
theorem C7_display_defers_to_first {E : Type} (disp descr : E → String)
    (e : E) (rest : List E) :
    MultiError.display disp (MultiError.new (e :: rest)) = some (disp e) ∧
    MultiError.description descr (MultiError.new (e :: rest)) =
      some (descr e) :=
  ⟨rfl, rfl⟩

/-- Claim C8: `MultiError::new` stores any vector, the empty one included,
without validation; with at least one error the `self.0[0]` access behind
`Display` and `description` succeeds, while on a zero-error container that
access has no value (the modelled panic branch). -/
theorem C8_new_unvalidated {E : Type} (v : List E) (disp descr : E → String) :
    (MultiError.new v).errors = v ∧
    (v ≠ [] → (MultiError.display disp (MultiError.new v)).isSome = true ∧
      (MultiError.description descr (MultiError.new v)).isSome = true) ∧
    MultiError.display disp (MultiError.new ([] : List E)) = none ∧
    MultiError.description descr (MultiError.new ([] : List E)) = none := by
  refine ⟨rfl, ?_, rfl, rfl⟩
  intro h
  cases v with
  | nil => exact absurd rfl h
  | cons e rest => exact ⟨rfl, rfl⟩

/-- Witness for C8 at a concrete input. -/
theorem C8_witness :
    ([0] : List Nat) ≠ [] ∧
    ((MultiError.display (fun n : Nat => toString n)
        (MultiError.new [0])).isSome = true ∧
      (MultiError.description (fun n : Nat => toString n)
        (MultiError.new [0])).isSome = true) :=
  ⟨by decide,
   (C8_new_unvalidated [0] (fun n => toString n)
      (fun n => toString n)).2.1 (by decide)⟩

/-- Claim C9: when the underlying sequence signals end while the adapter is
in `Continue`, the adapter propagates the end but stays in `Continue` with
the advanced underlying iterator, so the next pull pulls the underlying
sequence again and yields whatever it produces — over a non-fused
underlying sequence the adapter yields elements appearing after an end
signal. -/
theorem C9_continue_after_none {T E I : Type}
    (step : I → Option (Res T E) × I) (a b c : I) (n : Res T E)
    (h1 : step a = (none, b)) (h2 : step b = (some n, c)) :
    EndIfErrIter.next step ⟨a, State.Continue⟩ = (none, ⟨b, State.Continue⟩) ∧
    (EndIfErrIter.next step ⟨b, State.Continue⟩).1 = some n := by
  constructor
  · simp [EndIfErrIter.next, h1]
  · simp [EndIfErrIter.next, h2]

/-- Witness for C9 on the concrete non-fused iterator `nfStep`. -/
theorem C9_witness :
    EndIfErrIter.next nfStep ⟨0, State.Continue⟩ =
      (none, ⟨1, State.Continue⟩) ∧
    (EndIfErrIter.next nfStep ⟨1, State.Continue⟩).1 = some (Res.ok 42) :=
  C9_continue_after_none nfStep 0 1 2 (Res.ok 42) rfl rfl

/-- Claim C10: `MultiError::new(v)` followed by `into_iter` yields exactly
the elements of `v` in order, and `len` returns `v`'s length — nothing is
reordered, dropped or duplicated. -/
theorem C10_new_len_into_iter {E : Type} (v : List E) :
    MultiError.into_iter (MultiError.new v) = v ∧
    MultiError.len (MultiError.new v) = v.length :=
  ⟨rfl, rfl⟩
